import Mathlib

/-!
Shallow embedding of `src/option.h` (librealsense option abstraction):
the firmware-log option's start/stop state machine and poller worker,
the `hexify` helper, the extension-unit (XU) option template, and the
struct-field option. Machine floats appearing as option values are
modelled as rationals, plus the IEEE special values (NaN, infinities)
where a comparison's branch depends on them.
-/

namespace Rsimpl

/-- `struct option_range { float min; float max; float step; float def; }`.
The C++ field `def` is a Lean keyword, so it is called `defv` here. -/
structure option_range where
  min : ℚ
  max : ℚ
  step : ℚ
  defv : ℚ
  deriving DecidableEq, Repr

/-- A C++ `float` value as far as the comparison `value >= 1` in
`fw_logger_option::set` is concerned: NaN, the two infinities, or a
finite value (modelled as a rational). -/
inductive FVal where
  | nan : FVal
  | inf : FVal
  | neginf : FVal
  | fin (q : ℚ) : FVal
  deriving DecidableEq

/-- IEEE semantics of the C++ comparison `value >= 1`: false for NaN
(NaN compares false with everything), true for +inf, false for -inf,
and the ordinary order on finite values. -/
def FVal.ge1 : FVal → Bool
  | .nan => false
  | .inf => true
  | .neginf => false
  | .fin q => decide (1 ≤ q)

/-- IEEE semantics of `value < 1`: false for NaN. -/
def FVal.lt1 : FVal → Bool
  | .nan => false
  | .inf => false
  | .neginf => true
  | .fin q => decide (q < 1)

/-- Errors the firmware-log option can raise: the
`wrong_api_call_sequence_exception` thrown by `start_fw_logger` /
`stop_fw_logger`, and a system error (e.g. from `thread::join`). -/
inductive RsError where
  | wrong_api_call_sequence (msg : String) : RsError
  | system_error (msg : String) : RsError
  deriving DecidableEq

/-- Whether an operation outcome is a sequencing violation
(`wrong_api_call_sequence_exception`). -/
def isSeqError : Except RsError Unit → Bool
  | .error (.wrong_api_call_sequence _) => true
  | _ => false

/-- Mutable state of a `fw_logger_option`: the `_keep_fw_logger_alive`
atomic flag and whether the background worker thread is running. -/
structure FwLoggerState where
  keep_fw_logger_alive : Bool
  worker_running : Bool
  deriving DecidableEq, Repr

/-- The constructor `fw_logger_option(...)`: `_keep_fw_logger_alive(false)`
and no worker thread yet. -/
def fw_logger_init : FwLoggerState :=
  { keep_fw_logger_alive := false, worker_running := false }

/-- `fw_logger_option::start_fw_logger`. Throws
`wrong_api_call_sequence_exception("FW logger already started")` before any
mutation when the flag is already set; otherwise sets the flag and spawns
the worker thread. Returns the outcome together with the state after the
call (unchanged on the throw, since the throw precedes every assignment). -/
def start_fw_logger (s : FwLoggerState) : Except RsError Unit × FwLoggerState :=
  if s.keep_fw_logger_alive then
    (.error (.wrong_api_call_sequence "FW logger already started"), s)
  else
    (.ok (), { keep_fw_logger_alive := true, worker_running := true })

/-- `fw_logger_option::stop_fw_logger`. Throws
`wrong_api_call_sequence_exception("FW logger not started")` before any
mutation when the flag is already clear; otherwise clears the flag and
joins the worker. `joinErr` models a possible failure of
`_fw_logger_thread->join()`: when it fires, the flag has already been
cleared (the assignment precedes the join in the source), so the worker
exits cooperatively even though the join itself failed. -/
def stop_fw_logger (joinErr : Option String) (s : FwLoggerState) :
    Except RsError Unit × FwLoggerState :=
  if !s.keep_fw_logger_alive then
    (.error (.wrong_api_call_sequence "FW logger not started"), s)
  else
    match joinErr with
    | some msg =>
        (.error (.system_error msg),
         { keep_fw_logger_alive := false, worker_running := false })
    | none =>
        (.ok (), { keep_fw_logger_alive := false, worker_running := false })

/-- `fw_logger_option::set(float value)`:
`if (value >= 1) start_fw_logger(); else stop_fw_logger();`. -/
def fw_logger_set (joinErr : Option String) (value : FVal) (s : FwLoggerState) :
    Except RsError Unit × FwLoggerState :=
  if value.ge1 then start_fw_logger s else stop_fw_logger joinErr s

/-- `fw_logger_option::query()`: `return int(_keep_fw_logger_alive);`,
widened to float by the `float` return type. -/
def fw_logger_query (s : FwLoggerState) : ℚ :=
  if s.keep_fw_logger_alive then 1 else 0

/-- `fw_logger_option::get_range()`: `option_range result{0, 1, 1, 0}`. -/
def fw_logger_get_range : option_range :=
  { min := 0, max := 1, step := 1, defv := 0 }

/-- `fw_logger_option::~fw_logger_option()`:
`try { if (_keep_fw_logger_alive) stop_fw_logger(); } catch(...) {}` —
the stop runs only when the flag is set, and any error it raises is
discarded, so destruction yields a state and never an error. -/
def fw_logger_destruct (joinErr : Option String) (s : FwLoggerState) :
    FwLoggerState :=
  if s.keep_fw_logger_alive then (stop_fw_logger joinErr s).2 else s

/-- The digit table `"0123456789ABCDEF"[k]` used by `hexify`. -/
def hexDigit (k : Nat) : Char :=
  "0123456789ABCDEF".toList.getD k '?'

/-- The do-while loop of `hexify`: `do { res += table[n % 16]; n >>= 4; }
while (n);` — digits are accumulated least-significant first. Structural
recursion on a fuel argument so the definition evaluates by reduction;
`n >>> 4 < n` whenever the loop continues, so fuel `n` never runs out. -/
def hexifyLoop : Nat → Nat → List Char
  | 0, n => [hexDigit (n % 16)]
  | fuel + 1, n =>
      hexDigit (n % 16) :: (if n >>> 4 = 0 then [] else hexifyLoop fuel (n >>> 4))

/-- `inline std::string hexify(unsigned char n)`: emit hex digits
least-significant first, reverse, and left-pad with `'0'` to width 2. -/
def hexify (n : Nat) : String :=
  let res := (hexifyLoop n n).reverse
  String.mk (if res.length = 1 then '0' :: res else res)

/-- Environment of one poll iteration of the firmware-log worker: the
weak `_hw` reference may have expired (`strong == nullptr`), the
`send(cmd)` transport call may throw, or it returns a byte payload. -/
inductive PollEnv where
  | channelGone : PollEnv
  | sendFails : PollEnv
  | sendOk (data : List Nat) : PollEnv
  deriving DecidableEq

/-- The payload the worker appends after the tag:
`for (i = 0; i < data.size(); ++i) sstr << hexify(data[i]) << " ";`. -/
def fwLogPayload (data : List Nat) : String :=
  String.join (data.map fun b => hexify b ++ " ")

/-- One iteration of the worker loop body (the part inside `try { ... }
catch(...) {}`): an expired channel skips the iteration, a throwing
transport call is swallowed, and a successful `send` emits
`"FW_Log_Data:" + payload` via `LOG_INFO` only when the payload is
non-empty. The result is the log line emitted, if any. -/
def pollIteration : PollEnv → Option String
  | .channelGone => none
  | .sendFails => none
  | .sendOk data =>
      let sstr := "FW_Log_Data:" ++ fwLogPayload data
      if !data.isEmpty then some sstr else none

/-- The worker loop `while (_keep_fw_logger_alive) { sleep; try {...} }`,
unrolled with fuel. `flag i` is the value the atomic
`_keep_fw_logger_alive` flag has when the loop condition is evaluated
before iteration `i`; `envs i` is iteration `i`'s environment. The
result lists the emission outcome of each iteration actually executed. -/
def workerRun (flag : Nat → Bool) (envs : Nat → PollEnv) :
    Nat → Nat → List (Option String)
  | 0, _ => []
  | fuel + 1, i =>
      if flag i then pollIteration (envs i) :: workerRun flag envs fuel (i + 1)
      else []

/-- The scalar width parameter `T` of `uvc_xu_option<T>`: signedness and
`sizeof(T)` in bytes. -/
structure ScalarType where
  signed : Bool
  bytes : ℕ
  deriving DecidableEq

/-- Bit width `8 * sizeof(T)`. -/
def ScalarType.bits (T : ScalarType) : ℕ := 8 * T.bytes

/-- Smallest value representable in `T`. -/
def ScalarType.minVal (T : ScalarType) : ℤ :=
  if T.signed then -(2 ^ (T.bits - 1)) else 0

/-- Largest value representable in `T`. -/
def ScalarType.maxVal (T : ScalarType) : ℤ :=
  if T.signed then 2 ^ (T.bits - 1) - 1 else 2 ^ T.bits - 1

/-- C++ `static_cast<T>(value)` for a floating-point `value`: truncation
toward zero (the fractional part is discarded; defined behavior exactly
when the truncated value is representable in `T`). `Int.tdiv` is
truncating division, so `num.tdiv den` is the rational truncated toward
zero. -/
def ratTrunc (q : ℚ) : ℤ := q.num.tdiv (q.den : ℤ)

/-- The raw byte content `reinterpret_cast<uint8_t*>(&t)` hands to
`dev.set_xu`: the two's-complement encoding of `t` in `sizeof(T)` bytes,
as a natural number below `2 ^ bits`. -/
def ScalarType.encode (T : ScalarType) (t : ℤ) : ℕ :=
  (t % (2 ^ T.bits : ℤ)).toNat

/-- Reading the `sizeof(T)` bytes back through `T t; dev.get_xu(...)`:
two's-complement decoding of the raw register content. -/
def ScalarType.decode (T : ScalarType) (r : ℕ) : ℤ :=
  if T.signed then
    (if 2 ^ (T.bits - 1) ≤ r then (r : ℤ) - 2 ^ T.bits else (r : ℤ))
  else (r : ℤ)

/-- The device-side state of the XU register this option addresses: its
raw byte content. -/
structure XuDevice where
  reg : ℕ
  deriving DecidableEq

/-- `uvc_xu_option<T>::set(float value)`:
`T t = static_cast<T>(value); dev.set_xu(..., &t, sizeof(T));`. -/
def uvc_xu_set (T : ScalarType) (value : ℚ) (_d : XuDevice) : XuDevice :=
  { reg := T.encode (ratTrunc value) }

/-- `uvc_xu_option<T>::query()`:
`T t; dev.get_xu(..., &t, sizeof(T)); return static_cast<float>(t);`.
The widening `T → float` is exact for every value the round-trip claim
quantifies over (a float's truncation is always float-representable), so
it is modelled as the exact injection into ℚ. -/
def uvc_xu_query (T : ScalarType) (d : XuDevice) : ℚ :=
  ((T.decode d.reg : ℤ) : ℚ)

/-- `struct_feild_option<T, R, W, U>` over a struct type `σ`. The
struct-interface collaborator (declared outside this slice) provides
field-level access to the cached struct; `field_get`/`field_set` model
`_struct_interface->get(_field)` and `_struct_interface->set(_field, v)`
for the member pointer `_field` fixed at construction, and `range` is
the `_range` supplied to the constructor, returned by `get_range`. -/
structure struct_feild_option (σ : Type) where
  field_get : σ → ℚ
  field_set : σ → ℚ → σ
  range : option_range

/-- `struct_feild_option::set`: `_struct_interface->set(_field, value);`
mutates the cached struct, not the option. -/
def struct_feild_option.set {σ : Type} (o : struct_feild_option σ)
    (value : ℚ) (s : σ) : σ :=
  o.field_set s value

/-- `struct_feild_option::query`: `return _struct_interface->get(_field);`. -/
def struct_feild_option.query {σ : Type} (o : struct_feild_option σ)
    (s : σ) : ℚ :=
  o.field_get s

/-- `struct_feild_option::get_range`: `return _range;` — it reads only the
option's own `_range` member, never the cached struct. -/
def struct_feild_option.get_range {σ : Type} (o : struct_feild_option σ)
    (_s : σ) : option_range :=
  o.range

/-- An interleaved sequence of `set`/`query` calls on a struct-field
option. -/
inductive SfoOp where
  | setOp (v : ℚ) : SfoOp
  | queryOp : SfoOp

/-- Run a sequence of `set`/`query` calls against the cached struct:
`set` mutates it through the struct-interface, `query` leaves it alone. -/
def struct_feild_option.run {σ : Type} (o : struct_feild_option σ) :
    σ → List SfoOp → σ
  | s, [] => s
  | s, .setOp v :: ops => o.run (o.set v s) ops
  | s, .queryOp :: ops => o.run s ops

/-- The range invariant from the data model: `min ≤ default ≤ max`. -/
def option_range.consistent (r : option_range) : Prop :=
  r.min ≤ r.defv ∧ r.defv ≤ r.max

/-- A struct-field option whose construction-time range violates
`min ≤ default ≤ max`: the constructor stores whatever range it is given,
with no validation. The backing struct is a bare rational field. -/
def badRangeOption : struct_feild_option ℚ :=
  { field_get := fun s => s
    field_set := fun _ v => v
    range := { min := 2, max := 1, step := 1, defv := 5 } }

/-- A struct-field option over a bare rational field whose
construction-time range does satisfy `min ≤ default ≤ max`. -/
def idFieldOption : struct_feild_option ℚ :=
  { field_get := fun s => s
    field_set := fun _ v => v
    range := { min := 0, max := 1, step := 1, defv := 0 } }

/-- Two's-complement decode is a left inverse of encode on the values
representable in `T`: reading back the `sizeof(T)` bytes written by
`set_xu` recovers the stored `T` value exactly. -/
theorem ScalarType.decode_encode (T : ScalarType) (hb : 0 < T.bytes) (t : ℤ)
    (h1 : T.minVal ≤ t) (h2 : t ≤ T.maxVal) : T.decode (T.encode t) = t := by
  have hbits : 1 ≤ T.bits := by
    unfold ScalarType.bits
    omega
  have hsplit : (2 : ℤ) ^ T.bits = 2 * 2 ^ (T.bits - 1) := by
    conv_lhs => rw [show T.bits = T.bits - 1 + 1 from by omega]
    rw [pow_succ]
    ring
  have hp : (0 : ℤ) < 2 ^ (T.bits - 1) := by positivity
  have hm : (0 : ℤ) < 2 ^ T.bits := by positivity
  have hcast : ((2 ^ (T.bits - 1) : ℕ) : ℤ) = 2 ^ (T.bits - 1) := by push_cast; ring
  have hrnn : 0 ≤ t % 2 ^ T.bits := Int.emod_nonneg t (ne_of_gt hm)
  have hrr : ((T.encode t : ℕ) : ℤ) = t % 2 ^ T.bits := by
    unfold ScalarType.encode
    exact Int.toNat_of_nonneg hrnn
  simp only [ScalarType.minVal, ScalarType.maxVal] at h1 h2
  unfold ScalarType.decode
  by_cases hs : T.signed = true
  · simp only [hs, if_true] at h1 h2 ⊢
    by_cases hneg : t < 0
    · have hin : 0 ≤ t + 2 ^ T.bits := by omega
      have hmod : t % 2 ^ T.bits = t + 2 ^ T.bits := by
        calc t % 2 ^ T.bits = (t + 2 ^ T.bits * 1) % 2 ^ T.bits := by
              rw [Int.add_mul_emod_self_left]
          _ = (t + 2 ^ T.bits) % 2 ^ T.bits := by ring_nf
          _ = t + 2 ^ T.bits := Int.emod_eq_of_lt hin (by omega)
      rw [if_pos ?hcond]
      case hcond =>
        zify
        rw [hrr, hmod]
        omega
      rw [hrr, hmod]
      omega
    · have hmod : t % 2 ^ T.bits = t := Int.emod_eq_of_lt (by omega) (by omega)
      rw [if_neg ?hcond2]
      case hcond2 =>
        intro hcontra
        have hc := Int.ofNat_le.mpr hcontra
        rw [hcast, hrr, hmod] at hc
        omega
      rw [hrr, hmod]
  · simp only [Bool.not_eq_true] at hs
    simp only [hs, Bool.false_eq_true, if_false] at h1 h2 ⊢
    have hmod : t % 2 ^ T.bits = t := Int.emod_eq_of_lt (by omega) (by omega)
    rw [hrr, hmod]

/-- C1: for the firmware-log option, `set(v)` with `v >= 1` performs a
start and raises a sequencing violation iff the poller is already
running; `set(v)` with `v < 1` performs a stop and raises a sequencing
violation iff the poller is already stopped; a second start after a
successful start, and a second stop after a successful stop, always
raise a sequencing violation. -/
theorem fw_logger_set_sequencing (joinErr : Option String) (v : FVal)
    (s : FwLoggerState) :
    (v.ge1 = true →
      fw_logger_set joinErr v s = start_fw_logger s ∧
      (isSeqError (fw_logger_set joinErr v s).1 = true ↔
        s.keep_fw_logger_alive = true)) ∧
    (v.lt1 = true →
      fw_logger_set joinErr v s = stop_fw_logger joinErr s ∧
      (isSeqError (fw_logger_set joinErr v s).1 = true ↔
        s.keep_fw_logger_alive = false)) ∧
    (∀ s', start_fw_logger s = (Except.ok (), s') →
      isSeqError (start_fw_logger s').1 = true) ∧
    (∀ s' joinErr2, stop_fw_logger joinErr s = (Except.ok (), s') →
      isSeqError (stop_fw_logger joinErr2 s').1 = true) := by
  have hlt : v.lt1 = true → v.ge1 = false := by
    rcases v with _ | _ | _ | q <;> simp [FVal.lt1, FVal.ge1]
  refine ⟨?_, ?_, ?_, ?_⟩
  · intro hge
    unfold fw_logger_set
    rw [hge]
    refine ⟨by simp, ?_⟩
    cases hk : s.keep_fw_logger_alive <;>
      simp [start_fw_logger, isSeqError, hk]
  · intro hl
    have hge := hlt hl
    unfold fw_logger_set
    rw [hge]
    refine ⟨by simp, ?_⟩
    cases hk : s.keep_fw_logger_alive <;> cases joinErr <;>
      simp [stop_fw_logger, isSeqError, hk]
  · intro s' h
    cases hk : s.keep_fw_logger_alive <;>
      simp [start_fw_logger, hk] at h
    rw [← h]
    simp [start_fw_logger, isSeqError]
  · intro s' joinErr2 h
    cases hk : s.keep_fw_logger_alive <;> cases joinErr <;>
      simp [stop_fw_logger, hk] at h
    all_goals (rw [← h]; simp [stop_fw_logger, isSeqError])

/-- Witness for C1: `set(1)` on a running logger is a sequencing
violation. -/
theorem fw_logger_set_sequencing_witness :
    isSeqError (fw_logger_set none (FVal.fin 1)
      { keep_fw_logger_alive := true, worker_running := true }).1 = true :=
  ((fw_logger_set_sequencing none (FVal.fin 1)
      { keep_fw_logger_alive := true, worker_running := true }).1
    (by decide)).2.mpr rfl

/-- C2: for every extension-unit option of scalar width `T` and every
value whose float→T truncation lies in `T`'s representable range,
`set(v); query()` returns exactly `v` truncated to `T`'s domain — the
narrowing used by `set` is the one whose result `query` reports back. -/
theorem uvc_xu_set_query_roundtrip (T : ScalarType) (v : ℚ) (d : XuDevice)
    (hb : 0 < T.bytes) (h1 : T.minVal ≤ ratTrunc v) (h2 : ratTrunc v ≤ T.maxVal) :
    uvc_xu_query T (uvc_xu_set T v d) = ((ratTrunc v : ℤ) : ℚ) := by
  have h := ScalarType.decode_encode T hb (ratTrunc v) h1 h2
  unfold uvc_xu_query uvc_xu_set
  simp only
  rw [h]

/-- Witness for C2: on a signed 1-byte register, `set(-3.5); query()`
returns -3. -/
theorem uvc_xu_set_query_roundtrip_witness :
    uvc_xu_query ⟨true, 1⟩ (uvc_xu_set ⟨true, 1⟩ (mkRat (-35) 10) ⟨0⟩) =
      ((-3 : ℤ) : ℚ) := by
  have h := uvc_xu_set_query_roundtrip ⟨true, 1⟩ (mkRat (-35) 10) ⟨0⟩
    (by decide) (by decide) (by decide)
  rw [h, show ratTrunc (mkRat (-35) 10) = -3 from by decide]

set_option maxRecDepth 4096 in
/-- C3: `hexify` encodes every byte as exactly two upper-case hex digits,
most-significant nibble first (`0x0A ↦ "0A"`, `0xFF ↦ "FF"`,
`0x00 ↦ "00"`); the worker joins them with a space after each byte
(`[0x01, 0x02] ↦ "01 02 "`), prefixes the fixed tag, and emits the line
only when the returned payload is non-empty. -/
theorem fw_logger_hex_encoding :
    (∀ b, b < 256 → hexify b = String.mk [hexDigit (b / 16), hexDigit (b % 16)]) ∧
    hexify 10 = "0A" ∧ hexify 255 = "FF" ∧ hexify 0 = "00" ∧
    fwLogPayload [1, 2] = "01 02 " ∧
    (∀ data : List Nat, pollIteration (PollEnv.sendOk data) =
      if data = [] then none else some ("FW_Log_Data:" ++ fwLogPayload data)) := by
  refine ⟨by decide, by decide, by decide, by decide, by decide, ?_⟩
  intro data
  cases data <;> simp [pollIteration]

/-- Witness for C3: byte 0xAB encodes as its two nibbles in order. -/
theorem fw_logger_hex_encoding_witness :
    hexify 171 = String.mk [hexDigit 10, hexDigit 11] := by
  have h := fw_logger_hex_encoding.1 171 (by decide)
  rw [show (171 : Nat) / 16 = 10 from rfl, show (171 : Nat) % 16 = 11 from rfl] at h
  exact h

/-- C4 counterexample: a struct-field option built with range
`{min 2, max 1, step 1, default 5}` — the constructor stores the supplied
range unvalidated, so `get_range()` violates `min ≤ default ≤ max`. -/
theorem struct_feild_option_range_violation :
    ¬ (badRangeOption.get_range 0).consistent ∧
    (badRangeOption.get_range 0).min = 2 ∧
    (badRangeOption.get_range 0).defv = 5 ∧
    (badRangeOption.get_range 0).max = 1 := by
  refine ⟨?_, rfl, rfl, rfl⟩
  intro h
  rcases h with ⟨h1, h2⟩
  norm_num [badRangeOption, struct_feild_option.get_range] at h2

/-- C4 amended: the firmware-log option's fixed range satisfies
`min ≤ default ≤ max`; a struct-field option's `get_range` returns the
construction-time range unchanged, so it satisfies the invariant exactly
when the supplied range does. -/
theorem option_range_consistency_amended (σ : Type) (o : struct_feild_option σ)
    (s : σ) (h : o.range.consistent) :
    fw_logger_get_range.consistent ∧
    o.get_range s = o.range ∧
    (o.get_range s).consistent :=
  ⟨⟨by norm_num [fw_logger_get_range], by norm_num [fw_logger_get_range]⟩, rfl, h⟩

/-- Witness for the amended C4: a well-ranged struct-field option's
`get_range` satisfies the invariant. -/
theorem option_range_consistency_amended_witness :
    (idFieldOption.get_range 0).consistent :=
  (option_range_consistency_amended ℚ idFieldOption 0
    ⟨by norm_num [idFieldOption], by norm_num [idFieldOption]⟩).2.2

/-- C5: whatever the environments of the iterations are — including an
expired channel or a throwing transport on every iteration — the worker
executes exactly the iterations up to the first clearing of the stop
flag and terminates then and only then; error iterations emit nothing
and the loop continues. -/
theorem fw_logger_worker_runs_until_stop (flag : Nat → Bool)
    (envs : Nat → PollEnv) (fuel i k : Nat)
    (hrun : ∀ j, j < k → flag (i + j) = true)
    (hstop : flag (i + k) = false) (hfuel : k < fuel) :
    workerRun flag envs fuel i =
      (List.range k).map (fun j => pollIteration (envs (i + j))) ∧
    pollIteration PollEnv.channelGone = none ∧
    pollIteration PollEnv.sendFails = none := by
  refine ⟨?_, rfl, rfl⟩
  induction k generalizing fuel i with
  | zero =>
    cases fuel with
    | zero => omega
    | succ fuel =>
      have h0 : flag i = false := by simpa using hstop
      simp [workerRun, h0]
  | succ k ih =>
    cases fuel with
    | zero => omega
    | succ fuel =>
      have h0 : flag i = true := by simpa using hrun 0 (by omega)
      have hrun2 : ∀ j, j < k → flag (i + 1 + j) = true := by
        intro j hj
        have h3 : i + 1 + j = i + (j + 1) := by omega
        rw [h3]
        exact hrun (j + 1) (by omega)
      have hstop2 : flag (i + 1 + k) = false := by
        have h3 : i + 1 + k = i + (k + 1) := by omega
        rw [h3]
        exact hstop
      have hrec := ih fuel (i + 1) hrun2 hstop2 (by omega)
      rw [workerRun, h0]
      simp only [if_true]
      rw [hrec, List.range_succ_eq_map]
      simp only [List.map_cons, List.map_map, Nat.add_zero]
      congr 1
      apply List.map_congr_left
      intro j hj
      simp only [Function.comp_apply, Nat.succ_eq_add_one]
      have hidx : i + 1 + j = i + (j + 1) := by omega
      rw [hidx]

/-- Witness for C5: a flag that clears before iteration 2 makes the
worker run exactly two iterations, both with a throwing transport and
both emitting nothing. -/
theorem fw_logger_worker_runs_until_stop_witness :
    workerRun (fun n => decide (n < 2)) (fun _ => PollEnv.sendFails) 3 0 =
      [none, none] := by
  have h := (fw_logger_worker_runs_until_stop (fun n => decide (n < 2))
    (fun _ => PollEnv.sendFails) 3 0 2 (by decide) (by decide) (by decide)).1
  rw [h]
  rfl

/-- C6: destroying a firmware-log option while running performs the stop
sequence and yields a plain state — even a join error that an explicit
set-driven stop surfaces to the caller is discarded; destroying it while
stopped performs no stop. -/
theorem fw_logger_destruct_safe (joinErr : Option String) (msg : String)
    (s : FwLoggerState) :
    (s.keep_fw_logger_alive = true →
      fw_logger_destruct joinErr s = (stop_fw_logger joinErr s).2 ∧
      (fw_logger_destruct joinErr s).keep_fw_logger_alive = false ∧
      (fw_logger_destruct joinErr s).worker_running = false ∧
      (stop_fw_logger (some msg) s).1 = Except.error (RsError.system_error msg)) ∧
    (s.keep_fw_logger_alive = false → fw_logger_destruct joinErr s = s) := by
  constructor
  · intro hk
    cases joinErr <;>
      simp [fw_logger_destruct, stop_fw_logger, hk]
  · intro hk
    simp [fw_logger_destruct, hk]

/-- Witness for C6: destruction while running, with a failing join,
still yields the fully stopped state with no error. -/
theorem fw_logger_destruct_safe_witness :
    fw_logger_destruct (some "join failed")
      { keep_fw_logger_alive := true, worker_running := true } =
      { keep_fw_logger_alive := false, worker_running := false } := by
  have h := (fw_logger_destruct_safe (some "join failed") "join failed"
    { keep_fw_logger_alive := true, worker_running := true }).1 rfl
  have h2 := h.2.1
  have h3 := h.2.2.1
  cases he : fw_logger_destruct (some "join failed")
      { keep_fw_logger_alive := true, worker_running := true }
  rw [he] at h2 h3
  simp at h2 h3
  rw [h2, h3]

/-- C7: a firmware-log `set` that fails with a sequencing violation
leaves the state exactly as it was — same flag, same worker, and a
subsequent `query()` returns the same value as before the failure. -/
theorem fw_logger_set_seq_error_preserves_state (joinErr : Option String)
    (v : FVal) (s : FwLoggerState)
    (h : isSeqError (fw_logger_set joinErr v s).1 = true) :
    (fw_logger_set joinErr v s).2 = s ∧
    fw_logger_query (fw_logger_set joinErr v s).2 = fw_logger_query s ∧
    (fw_logger_set joinErr v s).2.worker_running = s.worker_running := by
  unfold fw_logger_set at h ⊢
  cases hge : v.ge1 <;>
    cases hk : s.keep_fw_logger_alive <;> cases joinErr <;>
    simp_all [start_fw_logger, stop_fw_logger, isSeqError, hk]

/-- Witness for C7: a failing `set(0)` on a freshly constructed (stopped)
logger leaves the state untouched. -/
theorem fw_logger_set_seq_error_preserves_state_witness :
    (fw_logger_set none (FVal.fin 0) fw_logger_init).2 = fw_logger_init :=
  (fw_logger_set_seq_error_preserves_state none (FVal.fin 0) fw_logger_init
    (by decide)).1

/-- C8: `query()` returns 1 exactly when the poller is running and 0
exactly when it is stopped; it is 0 after construction, 1 immediately
after a successful start, and 0 immediately after a successful stop. -/
theorem fw_logger_query_reports_state (s s' : FwLoggerState)
    (joinErr : Option String) :
    (fw_logger_query s = 1 ↔ s.keep_fw_logger_alive = true) ∧
    (fw_logger_query s = 0 ↔ s.keep_fw_logger_alive = false) ∧
    fw_logger_query fw_logger_init = 0 ∧
    (start_fw_logger s = (Except.ok (), s') → fw_logger_query s' = 1) ∧
    (stop_fw_logger joinErr s = (Except.ok (), s') → fw_logger_query s' = 0) := by
  refine ⟨?_, ?_, rfl, ?_, ?_⟩
  · cases hk : s.keep_fw_logger_alive <;> simp [fw_logger_query, hk]
  · cases hk : s.keep_fw_logger_alive <;> simp [fw_logger_query, hk]
  · intro h
    cases hk : s.keep_fw_logger_alive <;> simp [start_fw_logger, hk] at h
    rw [← h]
    rfl
  · intro h
    cases hk : s.keep_fw_logger_alive <;> cases joinErr <;>
      simp [stop_fw_logger, hk] at h
    rw [← h]
    rfl

/-- Witness for C8: immediately after the successful start from the
initial state, `query()` is 1. -/
theorem fw_logger_query_reports_state_witness :
    fw_logger_query { keep_fw_logger_alive := true, worker_running := true } = 1 :=
  (fw_logger_query_reports_state fw_logger_init
      { keep_fw_logger_alive := true, worker_running := true } none).2.2.2.1 rfl

/-- C9: a struct-field option's `get_range` returns the construction-time
range on every call, unaffected by any interleaved sequence of `set` and
`query` calls. -/
theorem struct_feild_option_get_range_stable (σ : Type)
    (o : struct_feild_option σ) (s : σ) (ops : List SfoOp) :
    o.get_range (o.run s ops) = o.range ∧
    o.get_range (o.run s ops) = o.get_range s :=
  ⟨rfl, rfl⟩

/-- C10: `value >= 1` is false for NaN (and for every other value whose
comparison fails), so `set(NaN)` takes the stop branch: it stops a
running poller and raises a sequencing violation when already stopped. -/
theorem fw_logger_set_nan_stops (joinErr : Option String) (s : FwLoggerState) :
    FVal.ge1 FVal.nan = false ∧
    FVal.lt1 FVal.nan = false ∧
    (∀ v : FVal, v.ge1 = false →
      fw_logger_set joinErr v s = stop_fw_logger joinErr s) ∧
    fw_logger_set joinErr FVal.nan s = stop_fw_logger joinErr s ∧
    (s.keep_fw_logger_alive = true →
      (fw_logger_set none FVal.nan s).1 = Except.ok () ∧
      (fw_logger_set none FVal.nan s).2.keep_fw_logger_alive = false) ∧
    (s.keep_fw_logger_alive = false →
      isSeqError (fw_logger_set joinErr FVal.nan s).1 = true) := by
  refine ⟨rfl, rfl, ?_, ?_, ?_, ?_⟩
  · intro v hv
    simp [fw_logger_set, hv]
  · simp [fw_logger_set, FVal.ge1]
  · intro hk
    simp [fw_logger_set, FVal.ge1, stop_fw_logger, hk]
  · intro hk
    simp [fw_logger_set, FVal.ge1, stop_fw_logger, isSeqError, hk]

/-- Witness for C10: `set(NaN)` on a running logger stops it. -/
theorem fw_logger_set_nan_stops_witness :
    (fw_logger_set none FVal.nan
      { keep_fw_logger_alive := true, worker_running := true }).2.keep_fw_logger_alive
      = false :=
  ((fw_logger_set_nan_stops none
      { keep_fw_logger_alive := true, worker_running := true }).2.2.2.2.1 rfl).2

end Rsimpl
